import Mathlib

/-!
Verification of the tabular data transformation engine of `csv2sql_tools`
(`be/app/routes.py`): type inference, min-max normalization, null handling,
CSV-to-SQL generation and SQL statement chunking.

Tables are modelled as in the code: a pandas `DataFrame` is an ordered list of
column names together with rectangular rows of tagged cell values
(`Cell` below mirrors the null / integer / float / string payloads a cell can
carry once a JSON body or a parsed CSV has been turned into a frame).  Python
float arithmetic is modelled by exact rational arithmetic over `ℚ`; the float
literal `0.1` is modelled by the exact rational `1/10`.
-/

/-- Equality of `Except` results is decidable when both payloads are. -/
instance {ε α : Type} [DecidableEq ε] [DecidableEq α] : DecidableEq (Except ε α) :=
  fun a b =>
    match a, b with
    | .error e1, .error e2 =>
      if h : e1 = e2 then .isTrue (by rw [h]) else .isFalse (by simpa using h)
    | .error _, .ok _ => .isFalse (by simp)
    | .ok _, .error _ => .isFalse (by simp)
    | .ok v1, .ok v2 =>
      if h : v1 = v2 then .isTrue (by rw [h]) else .isFalse (by simpa using h)

/-- A single table value: `NaN`/`None`, a Python `int`, a Python `float`
(modelled as an exact rational), or a `str`. -/
inductive Cell where
  | null : Cell
  | int : Int → Cell
  | float : ℚ → Cell
  | str : String → Cell
deriving DecidableEq

/-- The `pd.isna` test: only the null cell is missing (empty strings are not
null for pandas). -/
def isNullCell : Cell → Bool
  | .null => true
  | _ => false

/-- The `isinstance(val, (int, float))` test of the SQL generator. -/
def isNumCell : Cell → Bool
  | .int _ => true
  | .float _ => true
  | _ => false

/-- Numeric payload of a cell, if any (an `int` cell is read at its exact
numeric value, as pandas does when it widens `int64` to `float64`). -/
def cellVal : Cell → Option ℚ
  | .int n => some (n : ℚ)
  | .float q => some q
  | _ => none

/-- The ASCII single-quote character, written via its code point. -/
def quoteChar : Char := Char.ofNat 39

/-- The one-character string holding a single quote. -/
def quoteStr : String := String.mk [quoteChar]

/-- Character-level whitespace test used by the Python `str.strip` model. -/
def isWsChar (c : Char) : Bool := c.isWhitespace

/-- Model of Python `str.strip()`: drop whitespace from both ends. -/
def pyStrip (s : String) : String :=
  String.mk (((s.data.dropWhile isWsChar).reverse.dropWhile isWsChar).reverse)

/-- Split a character list at newline characters (helper for `splitLinesPy`). -/
def splitNlAux : List Char → List Char → List String
  | [], cur => [String.mk cur.reverse]
  | c :: cs, cur =>
    if c = '\n' then String.mk cur.reverse :: splitNlAux cs []
    else splitNlAux cs (c :: cur)

/-- Model of Python `str.splitlines()`: split at newlines; a trailing newline
produces no trailing empty line, and the empty string has no lines. -/
def splitLinesPy (s : String) : List String :=
  let parts := splitNlAux s.data []
  if parts.getLast? = some "" then parts.dropLast else parts

/-- Whether a string contains a given character (Python `c in line`). -/
def containsCh (s : String) (c : Char) : Bool := s.data.contains c

/-- Model of Python `sep.join(xs)`. -/
def joinSep (sep : String) : List String → String
  | [] => ""
  | [x] => x
  | x :: y :: xs => x ++ sep ++ joinSep sep (y :: xs)

/-- Decimal digits of a natural number, accumulator/fuel style so that the
kernel can evaluate it (the fuel is always sufficient, see `natRepr`). -/
def natDigitsAux : Nat → Nat → List Char → List Char
  | 0, _, acc => acc
  | fuel+1, n, acc =>
    let d := Char.ofNat (48 + n % 10)
    if n < 10 then d :: acc else natDigitsAux fuel (n / 10) (d :: acc)

/-- Decimal representation of a natural number (model of Python `str`). -/
def natRepr (n : Nat) : String := String.mk (natDigitsAux (n + 1) n [])

/-- Model of Python `str(...)` on an `int` value. -/
def pyIntRepr (n : Int) : String :=
  if n < 0 then "-" ++ natRepr n.natAbs else natRepr n.natAbs

/-- Model of Python `str(...)` on a `float` value: sign, integer part and six
fixed decimal places of the exact rational (a model of float printing). -/
def pyFloatRepr (q : ℚ) : String :=
  let sgn := if q.num < 0 then "-" else ""
  let np := q.num.natAbs
  let ip := np / q.den
  let fr := (np % q.den) * 1000000 / q.den
  let frs := natRepr fr
  sgn ++ natRepr ip ++ "." ++ String.mk (List.replicate (6 - frs.length) '0') ++ frs

/-- Double every single quote in a character list (model of
Python `str.replace` with a quote pattern, as used by the SQL generator). -/
def escListQ : List Char → List Char
  | [] => []
  | c :: cs => if c = quoteChar then quoteChar :: quoteChar :: escListQ cs else c :: escListQ cs

/-- Model of `str(val).replace` doubling embedded single quotes. -/
def escapeQuotes (s : String) : String := String.mk (escListQ s.data)

/-- Collapse doubled single quotes back to single ones (specification-side
inverse of `escListQ`, used to state that escaping is lossless). -/
def unescListQ : List Char → List Char
  | [] => []
  | [c] => [c]
  | c1 :: c2 :: cs =>
    if c1 = quoteChar ∧ c2 = quoteChar then quoteChar :: unescListQ cs
    else c1 :: unescListQ (c2 :: cs)

/-- String-level wrapper of `unescListQ`. -/
def unescapeQuotes (s : String) : String := String.mk (unescListQ s.data)

/-- Numeric value of a list of decimal digit characters. -/
def digitsVal (ds : List Char) : Nat := ds.foldl (fun a c => a * 10 + (c.toNat - 48)) 0

/-- Signed rational built from a natural numerator and denominator. -/
def mkSignedRat (neg : Bool) (n d : Nat) : ℚ :=
  if neg then mkRat (-(n : Int)) d else mkRat (n : Int) d

/-- Model of `pd.to_numeric(value, errors=coerce)` on one string: strip
whitespace, then accept an optional sign followed by decimal digits with at
most one decimal point (at least one digit overall); anything else coerces to
null.  Exponent notation is not modelled; no claim depends on it. -/
def parseNum (s : String) : Option ℚ :=
  let cs := (pyStrip s).data
  let neg : Bool := match cs with
    | '-' :: _ => true
    | _ => false
  let cs1 : List Char := match cs with
    | '-' :: t => t
    | '+' :: t => t
    | _ => cs
  let ip := cs1.takeWhile Char.isDigit
  let rest := cs1.dropWhile Char.isDigit
  match rest with
  | [] => if ip.isEmpty then none else some (mkSignedRat neg (digitsVal ip) 1)
  | c :: fp =>
    if c = '.' ∧ fp.all Char.isDigit ∧ (ip ≠ [] ∨ fp ≠ []) then
      some (mkSignedRat neg (digitsVal ip * 10 ^ fp.length + digitsVal fp) (10 ^ fp.length))
    else none

/-- Model of `pd.to_datetime(value, errors=coerce)` succeeding on one string:
an ISO `YYYY-MM-DD` date after stripping.  pandas accepts further formats, but
every claim only needs that plain numbers and free text are not dates. -/
def isDatetimeLike (s : String) : Bool :=
  match (pyStrip s).data with
  | [y1, y2, y3, y4, h1, m1, m2, h2, d1, d2] =>
    y1.isDigit && y2.isDigit && y3.isDigit && y4.isDigit && (h1 == '-') &&
      m1.isDigit && m2.isDigit && (h2 == '-') && d1.isDigit && d2.isDigit
  | _ => false

/-- The threshold test `count < len(df) * 0.1` of `determine_datatypes`; the
float literal `0.1` is the exact rational `1/10` in the model. -/
def threshLt (k n : Nat) : Bool := decide ((k : ℚ) < mkRat (n : Int) 10)

/-- Per-column result of `determine_datatypes`. -/
structure ColumnTypeInfo where
  detected : String
  nullCount : Nat
deriving DecidableEq

/-- A raw column as read with `dtype=str`: each cell is a string or missing. -/
def RawColumn : Type := List (Option String)

/-- Values of the column after numeric coercion (`pd.to_numeric` with
`errors=coerce`): missing cells stay null, unparseable strings become null. -/
def coerceNumeric (col : List (Option String)) : List (Option ℚ) :=
  col.map (fun v => v.bind parseNum)

/-- Count of nulls before any coercion (`df[column].isna().sum()`). -/
def nullsBefore (col : List (Option String)) : Nat :=
  (col.filter (fun v => v.isNone)).length

/-- Count of nulls after numeric coercion (`numeric_conversion.isna().sum()`). -/
def nullsAfterNumeric (col : List (Option String)) : Nat :=
  ((coerceNumeric col).filter (fun v => v.isNone)).length

/-- Count of nulls after datetime coercion
(`pd.to_datetime(df[column], errors=coerce).isna().sum()`). -/
def nullsAfterDatetime (col : List (Option String)) : Nat :=
  (col.filter (fun v => !(match v with | some s => isDatetimeLike s | none => false))).length

/-- The `numeric_conversion.dropna() % 1 == 0` test: every successfully
coerced value is integral (empty columns pass, as `.all()` does). -/
def allCoercedIntegral (col : List (Option String)) : Bool :=
  ((coerceNumeric col).filterMap id).all (fun q => q.den = 1)

/-- Column analysis of `determine_datatypes` (lines 197-237 of `routes.py`):
numeric when coercion introduces fewer than `len(df) * 0.1` new nulls, then
integer/float by the integrality check; otherwise datetime with the same
threshold; otherwise string.  The reported null counts mirror the code. -/
def inferColumn (col : List (Option String)) : ColumnTypeInfo :=
  let n := col.length
  let before := nullsBefore col
  let after := nullsAfterNumeric col
  if threshLt (after - before) n then
    if allCoercedIntegral col then ⟨"integer", after⟩ else ⟨"float", after⟩
  else
    let dtAfter := nullsAfterDatetime col
    if threshLt (dtAfter - before) n then ⟨"datetime", dtAfter⟩ else ⟨"string", before⟩

/-- A pandas column is numeric dtype when every cell is a number or `NaN`
(`df.select_dtypes(include=[number])` of `normalize_csv`). -/
def isNumericColumn (c : List Cell) : Bool :=
  c.all (fun x => isNumCell x || isNullCell x)

/-- Non-null numeric values of a column, in order. -/
def colVals (c : List Cell) : List ℚ := c.filterMap cellVal

/-- Column minimum over non-null values (`df[col].min()`, which skips `NaN`);
none when there is no non-null value. -/
def colMin (c : List Cell) : Option ℚ :=
  match colVals c with
  | [] => none
  | x :: xs => some (xs.foldl min x)

/-- Column maximum over non-null values (`df[col].max()`). -/
def colMax (c : List Cell) : Option ℚ :=
  match colVals c with
  | [] => none
  | x :: xs => some (xs.foldl max x)

/-- The min-max rescaling `(v - min) / (max - min)` of one value. -/
def scaleMinMax (m M v : ℚ) : ℚ := (v - m) / (M - m)

/-- Rescale one cell; nulls stay null and the result is a float, as the
pandas column arithmetic produces `float64`. -/
def scaleCell (m M : ℚ) : Cell → Cell
  | .null => .null
  | .int n => .float (scaleMinMax m M (n : ℚ))
  | .float q => .float (scaleMinMax m M q)
  | .str s => .str s

/-- Normalization of a single column (`normalize_csv`, lines 86-92): numeric
columns are min-max scaled unless `max > min` fails (constant, all-null or
empty columns are left untouched); non-numeric columns pass through. -/
def normalizeCol (c : List Cell) : List Cell :=
  if isNumericColumn c then
    match colMin c, colMax c with
    | some m, some M => if m < M then c.map (scaleCell m M) else c
    | _, _ => c
  else c

/-- Whole-table normalization; a `DataFrame` is column-oriented, so the table
is its ordered list of columns here. -/
def normalizeTable (t : List (List Cell)) : List (List Cell) :=
  t.map normalizeCol

/-- A table as built from a JSON list of row mappings: ordered column names
plus rectangular rows (missing keys have already become null cells, as
`pd.DataFrame` does). -/
structure Table where
  cols : List String
  rows : List (List Cell)
deriving DecidableEq

/-- Cell of a row at a column position (out-of-range reads are null, the
value pandas fills in for a column a row does not have). -/
def cellAt (r : List Cell) (i : Nat) : Cell := r.getD i .null

/-- Mean of the non-null values of a column (`df[column].mean()`); none when
there is no non-null value, in which case `fillna` is a no-op. -/
def colMean (c : List Cell) : Option ℚ :=
  match colVals c with
  | [] => none
  | x :: xs => some (((x :: xs).foldl (fun a b => a + b) 0) / ((x :: xs).length : ℚ))

/-- Insert a value into a sorted list (helper for the median model). -/
def insertSorted (q : ℚ) : List ℚ → List ℚ
  | [] => [q]
  | x :: xs => if q ≤ x then q :: x :: xs else x :: insertSorted q xs

/-- Insertion sort (helper for the median model). -/
def sortQ : List ℚ → List ℚ
  | [] => []
  | x :: xs => insertSorted x (sortQ xs)

/-- Median of the non-null values of a column (`df[column].median()`): middle
of the sorted values, or the mean of the two middles for even counts. -/
def colMedian (c : List Cell) : Option ℚ :=
  match sortQ (colVals c) with
  | [] => none
  | x :: xs =>
    let s := x :: xs
    let n := s.length
    if n % 2 = 1 then some (s.getD (n / 2) 0)
    else some ((s.getD (n / 2 - 1) 0 + s.getD (n / 2) 0) / 2)

/-- Number of occurrences of a cell in a column. -/
def countCell (c : List Cell) (v : Cell) : Nat := (c.filter (fun x => x = v)).length

/-- Model of `df[column].mode()[0]`: a most frequent non-null value; ties are
broken by first occurrence (pandas breaks ties by sort order; no claim
depends on the tie-break). none when every value is null. -/
def colMode (c : List Cell) : Option Cell :=
  (c.filter (fun x => !(isNullCell x))).foldl
    (fun best x =>
      match best with
      | none => some x
      | some b => if countCell c b < countCell c x then some x else best)
    none

/-- Replace the null cells of column `i` by `v` (`df[column].fillna(v)`). -/
def fillColumn (rows : List (List Cell)) (i : Nat) (v : Cell) : List (List Cell) :=
  rows.map (fun r => if isNullCell (cellAt r i) then r.set i v else r)

/-- Column values of a row-major table at position `i`. -/
def columnOf (rows : List (List Cell)) (i : Nat) : List Cell :=
  rows.map (fun r => cellAt r i)

/-- Numeric dtype test for a column built from a JSON body
(`pd.api.types.is_numeric_dtype`): all values numbers or nulls, with at least
one number (an all-null JSON column has object dtype). -/
def isNumericDtypeJson (c : List Cell) : Bool :=
  c.all (fun x => isNumCell x || isNullCell x) && c.any isNumCell

/-- One iteration of the `handle_nulls` loop (lines 127-143 of `routes.py`):
apply the strategy to one named column, skipping names that are not table
columns; a strategy string matching no branch leaves the table as it is. -/
def applyNullStrategy (strategy : String) (fillValue : Cell) (t : Table) (column : String) : Table :=
  if column ∈ t.cols then
    let i := List.indexOf column t.cols
    if strategy = "drop" then
      ⟨t.cols, t.rows.filter (fun r => !(isNullCell (cellAt r i)))⟩
    else if strategy = "mean" then
      if isNumericDtypeJson (columnOf t.rows i) then
        match colMean (columnOf t.rows i) with
        | some m => ⟨t.cols, fillColumn t.rows i (.float m)⟩
        | none => t
      else t
    else if strategy = "median" then
      if isNumericDtypeJson (columnOf t.rows i) then
        match colMedian (columnOf t.rows i) with
        | some m => ⟨t.cols, fillColumn t.rows i (.float m)⟩
        | none => t
      else t
    else if strategy = "mode" then
      match colMode (columnOf t.rows i) with
      | some v => ⟨t.cols, fillColumn t.rows i v⟩
      | none => t
    else if strategy = "zero" then
      ⟨t.cols, fillColumn t.rows i (.int 0)⟩
    else if strategy = "value" then
      ⟨t.cols, fillColumn t.rows i fillValue⟩
    else t
  else t

/-- The `handle_nulls` operation (lines 116-151 of `routes.py`): reject a body
missing `csvData` or `strategy`, then fold the per-column strategy over the
selected columns (default: all columns) and answer with the transformed table
and its final row count. -/
def handleNulls (csvData : Option Table) (strategy : Option String)
    (columns : Option (List String)) (fillValue : Option Cell) :
    Except String (Table × Nat) :=
  match csvData, strategy with
  | some t, some strat =>
    let cs := columns.getD t.cols
    let fv := fillValue.getD (.str "")
    let t2 := cs.foldl (applyNullStrategy strat fv) t
    .ok (t2, t2.rows.length)
  | _, _ => .error "Invalid request format"

/-- SQL column type of `csv_to_sql`: `is_integer_dtype` means a nonempty
column of ints only, `is_float_dtype` a numeric column otherwise; the
`datetime64` branch is unreachable for a JSON-built frame (no datetime cells),
everything else is TEXT. -/
def sqlColType (c : List Cell) : String :=
  if !c.isEmpty && c.all (fun x => match x with | .int _ => true | _ => false) then "INTEGER"
  else if c.any isNumCell && c.all (fun x => isNumCell x || isNullCell x) then "FLOAT"
  else "TEXT"

/-- Backtick-wrapped identifier; identifier content is not escaped. -/
def quoteIdent (s : String) : String := "`" ++ s ++ "`"

/-- Serialization of one cell value by the SQL generator (lines 310-322 and
329-340 of `routes.py`): null to NULL, numbers unquoted via `str`, strings
single-quoted with embedded quotes doubled, except a falsy (empty) string
which falls to NULL. -/
def serializeVal : Cell → String
  | .null => "NULL"
  | .int n => pyIntRepr n
  | .float q => pyFloatRepr q
  | .str s => if s.isEmpty then "NULL" else quoteStr ++ escapeQuotes s ++ quoteStr

/-- Common `INSERT INTO ... (...)` head of generated statements. -/
def insertHead (name : String) (cols : List String) : String :=
  "INSERT INTO " ++ quoteIdent name ++ " (" ++ joinSep ", " (cols.map quoteIdent) ++ ")"

/-- One single-row INSERT statement (batch size at most 1). -/
def rowInsert (name : String) (cols : List String) (r : List Cell) : String :=
  insertHead name cols ++ " VALUES (" ++ joinSep ", " (r.map serializeVal) ++ ");"

/-- One parenthesized tuple of a multi-row INSERT. -/
def rowTuple (r : List Cell) : String :=
  "(" ++ joinSep ", " (r.map serializeVal) ++ ")"

/-- One batched INSERT statement over a group of rows. -/
def multiInsert (name : String) (cols : List String) (g : List (List Cell)) : String :=
  insertHead name cols ++ " VALUES\n" ++ joinSep ",\n" (g.map rowTuple) ++ ";"

/-- Consecutive groups of at most `b` elements (`df.iloc[i:i+b]` for `i` in
`range(0, n, b)`), fuel style so the kernel can evaluate it. -/
def chunksOfFuel (b : Nat) : Nat → List α → List (List α)
  | _, [] => []
  | 0, l => [l]
  | f+1, x :: xs => (x :: xs).take b :: chunksOfFuel b f ((x :: xs).drop b)

/-- The row batching of `csv_to_sql` for a batch size of at least 2. -/
def batchRows (b : Nat) (rows : List (List Cell)) : List (List (List Cell)) :=
  chunksOfFuel b rows.length rows

/-- INSERT statements of `csv_to_sql` (lines 304-343 of `routes.py`): one per
row when the requested batch size is at most 1, else one per consecutive
group of `batchSize` rows. -/
def csvToSqlInserts (name : String) (cols : List String) (rows : List (List Cell))
    (batchSize : Int) : List String :=
  if batchSize ≤ 1 then rows.map (rowInsert name cols)
  else (batchRows batchSize.toNat rows).map (multiInsert name cols)

/-- Result record of `csv_to_sql`. -/
structure SqlResult where
  createTableStatement : String
  insertStatements : List String
  rowCount : Nat
  columnCount : Nat
deriving DecidableEq

/-- The CREATE TABLE statement of `csv_to_sql`. -/
def createTableFor (name : String) (t : Table) : String :=
  "CREATE TABLE " ++ quoteIdent name ++ " (\n  " ++
    joinSep ",\n  "
      (t.cols.enum.map (fun p => quoteIdent p.2 ++ " " ++ sqlColType (columnOf t.rows p.1))) ++
    "\n);"

/-- The `csv_to_sql` operation on an already-built table. -/
def csvToSql (name : String) (t : Table) (batchSize : Int) : SqlResult :=
  { createTableStatement := createTableFor name t
    insertStatements := csvToSqlInserts name t.cols t.rows batchSize
    rowCount := t.rows.length
    columnCount := t.cols.length }

/-- Statement accumulation of `sql_splitter` (lines 371-384 of `routes.py`):
lines are appended (with a newline) to the current statement buffer; a line
containing a semicolon closes the statement, which is stripped and recorded;
a leftover non-blank buffer becomes a final statement. -/
def gatherStmts : List String → String → List String
  | [], cur => if pyStrip cur = "" then [] else [pyStrip cur]
  | l :: ls, cur =>
    let cur2 := cur ++ l ++ "\n"
    if containsCh l ';' then pyStrip cur2 :: gatherStmts ls "" else gatherStmts ls cur2

/-- Statement extraction of `sql_splitter` over the script lines. -/
def extractStatements (content : String) : List String :=
  gatherStmts (splitLinesPy content) ""

/-- Line count of a statement (`len(statement.splitlines())`). -/
def numLines (s : String) : Nat := (splitLinesPy s).length

/-- Greedy statement packing of `sql_splitter` (lines 386-404): a statement
joins the current chunk unless that would exceed the maximum while the chunk
is already non-empty, in which case the chunk is closed and a new one starts
with just that statement. -/
def chunkGo (maxSize : Nat) : List String → List String → Nat → List (List String)
  | [], cur, _ => if cur.isEmpty then [] else [cur]
  | s :: rest, cur, curSize =>
    let sz := numLines s
    if maxSize < curSize + sz ∧ cur ≠ [] then
      cur :: chunkGo maxSize rest [s] sz
    else
      chunkGo maxSize rest (cur ++ [s]) (curSize + sz)

/-- The chunk groups (as statement lists) produced by `sql_splitter`. -/
def sqlSplitterGroups (content : String) (maxSize : Nat) : List (List String) :=
  chunkGo maxSize (extractStatements content) [] 0

/-- Result record of `sql_splitter`. -/
structure ChunkResult where
  chunks : List String
  chunkCount : Nat
  originalStatementCount : Nat
deriving DecidableEq

/-- The `sql_splitter` operation: chunk texts are the newline-joins of the
chunk groups, with the reported counts of the code. -/
def sqlSplitter (content : String) (maxSize : Nat) : ChunkResult :=
  let groups := sqlSplitterGroups content maxSize
  { chunks := groups.map (joinSep "\n")
    chunkCount := (groups.map (joinSep "\n")).length
    originalStatementCount := (extractStatements content).length }

/-- Total line count of a chunk group, statement by statement. -/
def groupSize (g : List String) : Nat := (g.map numLines).sum

/-- Outcome of one `pd.read_csv` attempt, as seen by the fallback ladder of
`determine_datatypes`: success, a `pd.errors.ParserError`, a `TypeError`
(older-pandas keyword mismatch), or any other exception. -/
inductive ReadFailure where
  | parserError (msg : String)
  | typeError (msg : String)
  | otherError (msg : String)
deriving DecidableEq

/-- Message carried by a read failure. -/
def failureMsg : ReadFailure → String
  | .parserError m => m
  | .typeError m => m
  | .otherError m => m

/-- Oracle for the four `pd.read_csv` calls of `determine_datatypes`: the
strict read, the `on_bad_lines=skip` read, the legacy `error_bad_lines=False`
read and the permissive `sep=None, engine=python` read. -/
structure CsvReadAttempts where
  strict : Except ReadFailure Table
  skipBadLines : Except ReadFailure Table
  legacySkip : Except ReadFailure Table
  permissive : Except ReadFailure Table

/-- An uploaded file: its filename and what each parse attempt would yield. -/
structure UploadedFile where
  filename : String
  attempts : CsvReadAttempts

/-- Observable outcome of the CSV ingestion phase. -/
inductive IngestOutcome where
  | clientError (msg : String)
  | serverError (msg : String)
  | parsed (t : Table) (warning : Bool)
deriving DecidableEq

/-- CSV ingestion of `determine_datatypes` (lines 161-193 of `routes.py`):
missing upload or empty filename is a client error; a strict-parse
`ParserError` triggers the skip-bad-lines read (legacy variant on
`TypeError`) and sets the warning flag; any other strict-parse failure
triggers the permissive read, which sets no flag; a failed fallback surfaces
a server error carrying the underlying message. -/
def determineIngest (upload : Option UploadedFile) : IngestOutcome :=
  match upload with
  | none => .clientError "No file part"
  | some f =>
    if f.filename = "" then .clientError "No selected file"
    else
      match f.attempts.strict with
      | .ok df => .parsed df false
      | .error (.parserError _) =>
        match f.attempts.skipBadLines with
        | .ok df => .parsed df true
        | .error (.typeError _) =>
          match f.attempts.legacySkip with
          | .ok df => .parsed df true
          | .error e => .serverError ("Failed to analyze CSV: " ++ failureMsg e)
        | .error e => .serverError ("Failed to analyze CSV: " ++ failureMsg e)
      | .error _ =>
        match f.attempts.permissive with
        | .ok df => .parsed df false
        | .error e2 =>
          .serverError ("Failed to analyze CSV: Could not parse CSV file: " ++ failureMsg e2 ++
            ". Try checking for invalid characters or inconsistent formatting.")

/-! ### Lemmas about the normalizer -/

theorem cellVal_scaleCell (m M : ℚ) (x : Cell) :
    cellVal (scaleCell m M x) = (cellVal x).map (scaleMinMax m M) := by
  cases x <;> rfl

theorem colVals_map_scale (m M : ℚ) (c : List Cell) :
    colVals (c.map (scaleCell m M)) = (colVals c).map (scaleMinMax m M) := by
  unfold colVals
  rw [List.filterMap_map, List.map_filterMap]
  apply List.filterMap_congr
  intro x _
  rw [Function.comp_apply, cellVal_scaleCell]

theorem scaleMinMax_mono {m M : ℚ} (h : m < M) : Monotone (scaleMinMax m M) := by
  intro a b hab
  unfold scaleMinMax
  have h2 : (0 : ℚ) < M - m := by linarith
  exact (div_le_div_iff_of_pos_right h2).mpr (by linarith)

theorem foldl_min_map {g : ℚ → ℚ} (hg : Monotone g) (xs : List ℚ) (x : ℚ) :
    (xs.map g).foldl min (g x) = g (xs.foldl min x) := by
  induction xs generalizing x with
  | nil => rfl
  | cons y ys ih =>
    simp only [List.map_cons, List.foldl_cons]
    rw [← hg.map_min, ih]

theorem foldl_max_map {g : ℚ → ℚ} (hg : Monotone g) (xs : List ℚ) (x : ℚ) :
    (xs.map g).foldl max (g x) = g (xs.foldl max x) := by
  induction xs generalizing x with
  | nil => rfl
  | cons y ys ih =>
    simp only [List.map_cons, List.foldl_cons]
    rw [← hg.map_max, ih]

theorem colMin_map_scale {m M : ℚ} (h : m < M) (c : List Cell) :
    colMin (c.map (scaleCell m M)) = (colMin c).map (scaleMinMax m M) := by
  unfold colMin
  rw [colVals_map_scale]
  cases colVals c with
  | nil => rfl
  | cons x xs =>
    simp only [List.map_cons]
    rw [foldl_min_map (scaleMinMax_mono h)]
    rfl

theorem colMax_map_scale {m M : ℚ} (h : m < M) (c : List Cell) :
    colMax (c.map (scaleCell m M)) = (colMax c).map (scaleMinMax m M) := by
  unfold colMax
  rw [colVals_map_scale]
  cases colVals c with
  | nil => rfl
  | cons x xs =>
    simp only [List.map_cons]
    rw [foldl_max_map (scaleMinMax_mono h)]
    rfl

theorem scaleMinMax_left (m M : ℚ) : scaleMinMax m M m = 0 := by
  unfold scaleMinMax
  rw [sub_self, zero_div]

theorem scaleMinMax_right {m M : ℚ} (h : m < M) : scaleMinMax m M M = 1 := by
  unfold scaleMinMax
  exact div_self (by intro hc; rw [sub_eq_zero] at hc; exact absurd hc (by linarith))

theorem scaleMinMax_zero_one (v : ℚ) : scaleMinMax 0 1 v = v := by
  unfold scaleMinMax
  norm_num

theorem normalizeCol_eq_map {c : List Cell} {m M : ℚ} (hnum : isNumericColumn c = true)
    (hm : colMin c = some m) (hM : colMax c = some M) (hlt : m < M) :
    normalizeCol c = c.map (scaleCell m M) := by
  unfold normalizeCol
  rw [hnum, hm, hM]
  simp [hlt]

theorem normalizeCol_minmax {c : List Cell} {m M : ℚ} (hnum : isNumericColumn c = true)
    (hm : colMin c = some m) (hM : colMax c = some M) (hlt : m < M) :
    colMin (normalizeCol c) = some 0 ∧ colMax (normalizeCol c) = some 1 := by
  rw [normalizeCol_eq_map hnum hm hM hlt]
  constructor
  · rw [colMin_map_scale hlt, hm]
    simp [scaleMinMax_left]
  · rw [colMax_map_scale hlt, hM]
    simp [scaleMinMax_right hlt]

theorem normalizeCol_const {c : List Cell} (h : ∀ m M : ℚ, colMin c = some m → colMax c = some M → ¬ m < M) :
    normalizeCol c = c := by
  unfold normalizeCol
  cases hnum : isNumericColumn c
  · rfl
  · cases hm : colMin c with
    | none => rfl
    | some m =>
      cases hM : colMax c with
      | none => rfl
      | some M => simp [h m M hm hM]

theorem scaleCell_comp_zero_one (m M : ℚ) (x : Cell) :
    scaleCell 0 1 (scaleCell m M x) = scaleCell m M x := by
  cases x <;> simp [scaleCell, scaleMinMax_zero_one]

theorem isNumericColumn_map_scale (m M : ℚ) {c : List Cell}
    (hnum : isNumericColumn c = true) : isNumericColumn (c.map (scaleCell m M)) = true := by
  unfold isNumericColumn at *
  rw [List.all_map]
  rw [List.all_eq_true] at *
  intro x hx
  have hb := hnum x hx
  cases x <;> simp_all [scaleCell, isNumCell, isNullCell]

theorem normalizeCol_not_lt {c : List Cell} {m M : ℚ}
    (hm : colMin c = some m) (hM : colMax c = some M) (hlt : ¬ m < M) :
    normalizeCol c = c := by
  unfold normalizeCol
  rw [hm, hM]
  cases hnum : isNumericColumn c <;> simp [hlt]

theorem colMin_isSome_of_max {c : List Cell} {M : ℚ} (hM : colMax c = some M) :
    ∃ m, colMin c = some m := by
  unfold colMin
  unfold colMax at hM
  cases h2 : colVals c with
  | nil => rw [h2] at hM; simp at hM
  | cons x xs => exact ⟨_, rfl⟩

theorem colMax_isSome_of_min {c : List Cell} {m : ℚ} (hm : colMin c = some m) :
    ∃ M, colMax c = some M := by
  unfold colMax
  unfold colMin at hm
  cases h2 : colVals c with
  | nil => rw [h2] at hm; simp at hm
  | cons x xs => exact ⟨_, rfl⟩

theorem normalizeCol_none {c : List Cell} (hm : colMin c = none) : normalizeCol c = c := by
  unfold normalizeCol
  rw [hm]
  cases isNumericColumn c <;> rfl

theorem normalizeCol_idem (c : List Cell) : normalizeCol (normalizeCol c) = normalizeCol c := by
  by_cases hnum : isNumericColumn c = true
  · cases hm : colMin c with
    | none =>
      rw [normalizeCol_none hm, normalizeCol_none hm]
    | some m =>
      obtain ⟨M, hM⟩ := colMax_isSome_of_min hm
      by_cases hlt : m < M
      · have hmap := normalizeCol_eq_map hnum hm hM hlt
        have h01 := normalizeCol_minmax hnum hm hM hlt
        rw [hmap] at h01
        rw [hmap]
        rw [normalizeCol_eq_map (isNumericColumn_map_scale m M hnum) h01.1 h01.2 (by norm_num)]
        rw [List.map_map]
        apply List.map_congr_left
        intro x _
        exact scaleCell_comp_zero_one m M x
      · rw [normalizeCol_not_lt hm hM hlt, normalizeCol_not_lt hm hM hlt]
  · have h1 : normalizeCol c = c := by
      unfold normalizeCol
      rw [if_neg hnum]
    rw [h1, h1]

theorem normalizeCol_vals_id {c : List Cell} (hnum : isNumericColumn c = true)
    (h0 : colMin c = some 0) (h1 : colMax c = some 1) :
    (normalizeCol c).map cellVal = c.map cellVal := by
  rw [normalizeCol_eq_map hnum h0 h1 (by norm_num), List.map_map]
  apply List.map_congr_left
  intro x _
  rw [Function.comp_apply, cellVal_scaleCell]
  cases cellVal x <;> simp [scaleMinMax_zero_one]

theorem normalizeTable_idem_all (t : List (List Cell)) :
    normalizeTable (normalizeTable t) = normalizeTable t := by
  unfold normalizeTable
  rw [List.map_map]
  apply List.map_congr_left
  intro c _
  exact normalizeCol_idem c

/-! ### Lemmas about the SQL chunker -/

/-- A chunk is well formed when its combined line count fits the maximum or it
is a lone oversized statement. -/
def goodChunk (maxSize : Nat) (g : List String) : Prop :=
  groupSize g ≤ maxSize ∨ ∃ s, g = [s] ∧ maxSize < numLines s

theorem goodChunk_single (maxSize : Nat) (s : String) : goodChunk maxSize [s] := by
  by_cases h : numLines s ≤ maxSize
  · exact Or.inl (by simp [groupSize, h])
  · exact Or.inr ⟨s, rfl, by omega⟩

theorem chunkGo_flatten (maxSize : Nat) :
    ∀ (rest cur : List String) (sz : Nat), (chunkGo maxSize rest cur sz).flatten = cur ++ rest := by
  intro rest
  induction rest with
  | nil =>
    intro cur sz
    unfold chunkGo
    cases cur <;> simp
  | cons s rest ih =>
    intro cur sz
    unfold chunkGo
    by_cases h : maxSize < sz + numLines s ∧ cur ≠ []
    · rw [if_pos h]
      simp [ih]
    · rw [if_neg h]
      simp [ih]

theorem chunkGo_sizes (maxSize : Nat) :
    ∀ (rest cur : List String) (sz : Nat), sz = groupSize cur → (cur = [] ∨ goodChunk maxSize cur) →
      ∀ g ∈ chunkGo maxSize rest cur sz, goodChunk maxSize g := by
  intro rest
  induction rest with
  | nil =>
    intro cur sz _ hcur g hg
    unfold chunkGo at hg
    cases cur with
    | nil => simp at hg
    | cons a l =>
      simp at hg
      rw [hg]
      cases hcur with
      | inl h => exact absurd h (by simp)
      | inr h => exact h
  | cons s rest ih =>
    intro cur sz hsz hcur g hg
    unfold chunkGo at hg
    by_cases h : maxSize < sz + numLines s ∧ cur ≠ []
    · rw [if_pos h] at hg
      rcases List.mem_cons.mp hg with hg1 | hg2
      · rw [hg1]
        cases hcur with
        | inl hc => exact absurd hc h.2
        | inr hc => exact hc
      · exact ih [s] (numLines s) (by simp [groupSize]) (Or.inr (goodChunk_single maxSize s)) g hg2
    · rw [if_neg h] at hg
      have hsz2 : sz + numLines s = groupSize (cur ++ [s]) := by
        simp [groupSize, hsz]
      rcases Decidable.em (cur = []) with hc | hc
      · subst hc
        have hsz0 : sz = 0 := by simpa [groupSize] using hsz
        subst hsz0
        exact ih [s] (numLines s) (by simp [groupSize]) (Or.inr (goodChunk_single maxSize s)) g
          (by simpa using hg)
      · have hle : sz + numLines s ≤ maxSize := by
          rcases Decidable.not_and_iff_or_not.mp h with h1 | h2
          · omega
          · exact absurd hc (by simpa using h2)
        exact ih (cur ++ [s]) (sz + numLines s) hsz2
          (Or.inr (Or.inl (by rw [← hsz2]; exact hle))) g hg

/-! ### Lemmas about row batching -/

theorem drop_len_le_fuel {α : Type} (b f : Nat) (x : α) (xs : List α)
    (hb : 1 ≤ b) (hl : (x :: xs).length ≤ f + 1) : ((x :: xs).drop b).length ≤ f := by
  simp only [List.length_drop, List.length_cons] at *
  omega

theorem chunksOfFuel_flatten {α : Type} (b : Nat) (hb : 1 ≤ b) :
    ∀ (f : Nat) (l : List α), l.length ≤ f → (chunksOfFuel b f l).flatten = l := by
  intro f
  induction f with
  | zero =>
    intro l hl
    cases l with
    | nil => rfl
    | cons x xs => simp at hl
  | succ f ih =>
    intro l hl
    cases l with
    | nil => rfl
    | cons x xs =>
      unfold chunksOfFuel
      rw [List.flatten_cons, ih ((x :: xs).drop b) (drop_len_le_fuel b f x xs hb hl)]
      exact List.take_append_drop b (x :: xs)

theorem div_eq_one_of_between {m b : Nat} (h1 : b ≤ m) (h2 : m < 2 * b) : m / b = 1 := by
  have hb : 0 < b := by omega
  rw [Nat.div_eq_sub_div hb h1, Nat.div_eq_of_lt (by omega)]

theorem chunksOfFuel_length {α : Type} (b : Nat) (hb : 1 ≤ b) :
    ∀ (f : Nat) (l : List α), l.length ≤ f →
      (chunksOfFuel b f l).length = (l.length + b - 1) / b := by
  intro f
  induction f with
  | zero =>
    intro l hl
    cases l with
    | nil =>
      simp only [chunksOfFuel, List.length_nil]
      have e : 0 + b - 1 = b - 1 := by omega
      rw [e, Nat.div_eq_of_lt (by omega)]
    | cons x xs => simp at hl
  | succ f ih =>
    intro l hl
    cases l with
    | nil =>
      simp only [chunksOfFuel, List.length_nil]
      have e : 0 + b - 1 = b - 1 := by omega
      rw [e, Nat.div_eq_of_lt (by omega)]
    | cons x xs =>
      unfold chunksOfFuel
      rw [List.length_cons, ih ((x :: xs).drop b) (drop_len_le_fuel b f x xs hb hl),
        List.length_drop]
      have hn : 1 ≤ (x :: xs).length := by simp
      rcases Decidable.em ((x :: xs).length ≤ b) with hc | hc
      · have e0 : (x :: xs).length - b = 0 := by omega
        have e1 : 0 + b - 1 = b - 1 := by omega
        rw [e0, e1, Nat.div_eq_of_lt (by omega),
          div_eq_one_of_between (by omega) (by omega)]
      · have e1 : (x :: xs).length - b + b - 1 = (x :: xs).length - 1 := by omega
        have e2 : (x :: xs).length + b - 1 = ((x :: xs).length - 1) + b := by omega
        rw [e1, e2, Nat.add_div_right _ (by omega)]

theorem chunksOfFuel_dropLast {α : Type} (b : Nat) (hb : 1 ≤ b) :
    ∀ (f : Nat) (l : List α), l.length ≤ f →
      ∀ g ∈ (chunksOfFuel b f l).dropLast, g.length = b := by
  intro f
  induction f with
  | zero =>
    intro l hl g hg
    cases l with
    | nil => simp [chunksOfFuel] at hg
    | cons x xs => simp at hl
  | succ f ih =>
    intro l hl g hg
    cases l with
    | nil => simp [chunksOfFuel] at hg
    | cons x xs =>
      unfold chunksOfFuel at hg
      cases h2 : chunksOfFuel b f ((x :: xs).drop b) with
      | nil => rw [h2] at hg; simp at hg
      | cons y ys =>
        rw [h2, List.dropLast_cons_of_ne_nil (by simp)] at hg
        rcases List.mem_cons.mp hg with hg1 | hg2
        · have hd : (x :: xs).drop b ≠ [] := by
            intro hnil
            rw [hnil] at h2
            simp [chunksOfFuel] at h2
          have hblt : b < (x :: xs).length := by
            rcases Decidable.em ((x :: xs).length ≤ b) with hc | hc
            · exact absurd (List.drop_eq_nil_of_le hc) hd
            · omega
          rw [hg1, List.length_take]
          omega
        · exact ih ((x :: xs).drop b) (drop_len_le_fuel b f x xs hb hl) g (h2 ▸ hg2)

theorem chunksOfFuel_mem {α : Type} (b : Nat) (hb : 1 ≤ b) :
    ∀ (f : Nat) (l : List α), l.length ≤ f →
      ∀ g ∈ chunksOfFuel b f l, g.length ≤ b ∧ g ≠ [] := by
  intro f
  induction f with
  | zero =>
    intro l hl g hg
    cases l with
    | nil => simp [chunksOfFuel] at hg
    | cons x xs => simp at hl
  | succ f ih =>
    intro l hl g hg
    cases l with
    | nil => simp [chunksOfFuel] at hg
    | cons x xs =>
      unfold chunksOfFuel at hg
      rcases List.mem_cons.mp hg with hg1 | hg2
      · subst hg1
        constructor
        · rw [List.length_take]; omega
        · cases hbb : b with
          | zero => omega
          | succ b2 => simp [List.take]
      · exact ih ((x :: xs).drop b) (drop_len_le_fuel b f x xs hb hl) g hg2

/-! ### Lemmas about type inference -/

theorem threshLt_iff (k n : Nat) : threshLt k n = true ↔ 10 * k < n := by
  unfold threshLt
  rw [decide_eq_true_eq, Rat.mkRat_eq_div]
  push_cast
  rw [lt_div_iff₀ (by norm_num : (0 : ℚ) < 10)]
  constructor <;> intro h
  · have h2 : k * 10 < n := by exact_mod_cast h
    omega
  · have h2 : k * 10 < n := by omega
    exact_mod_cast h2

theorem inferColumn_if_numeric {col : List (Option String)}
    (h : threshLt (nullsAfterNumeric col - nullsBefore col) col.length = true) :
    inferColumn col =
      if allCoercedIntegral col then ColumnTypeInfo.mk "integer" (nullsAfterNumeric col)
      else ColumnTypeInfo.mk "float" (nullsAfterNumeric col) := by
  simp only [inferColumn, h, if_true]

theorem inferColumn_if_not_numeric {col : List (Option String)}
    (h : threshLt (nullsAfterNumeric col - nullsBefore col) col.length = false) :
    inferColumn col =
      if threshLt (nullsAfterDatetime col - nullsBefore col) col.length then
        ColumnTypeInfo.mk "datetime" (nullsAfterDatetime col)
      else ColumnTypeInfo.mk "string" (nullsBefore col) := by
  simp only [inferColumn, h]
  simp

/-! ### A concrete large script for the chunker example: three statements of
5, 1200 and 5 lines.  Statements are built from `b`-lines so the example can
be settled symbolically (the script is too large to evaluate in the kernel). -/

/-- `n` repetitions of the line `b` followed by a newline. -/
def bRep : Nat → String
  | 0 => ""
  | n+1 => "b\n" ++ bRep n

/-- A statement of `n + 1` lines: `n` lines of `b` and a final `b;` line. -/
def stmtOf (n : Nat) : String := bRep n ++ "b;"

/-- The raw text of `stmtOf n` inside the script, newline-terminated. -/
def blockOf (n : Nat) : String := bRep n ++ "b;\n"

/-- A script with statements of 5, 1200 and 5 lines. -/
def bigSqlScript : String := blockOf 4 ++ (blockOf 1199 ++ blockOf 4)

/-- The lines of `bigSqlScript`. -/
def bigLines : List String :=
  List.replicate 4 "b" ++ ("b;" ::
    (List.replicate 1199 "b" ++ ("b;" :: (List.replicate 4 "b" ++ ["b;"]))))

theorem string_nil_append (s : String) : "" ++ s = s := by
  cases s
  rfl

theorem blockOf_data (n : Nat) :
    (blockOf (n+1)).data = 'b' :: '\n' :: (blockOf n).data := by
  show ((("b\n" ++ bRep n) ++ "b;\n")).data = 'b' :: '\n' :: ((bRep n ++ "b;\n")).data
  rw [String.data_append, String.data_append, String.data_append]
  simp

theorem splitNlAux_block (n : Nat) (rest : List Char) :
    splitNlAux ((blockOf n).data ++ rest) [] =
      List.replicate n "b" ++ ("b;" :: splitNlAux rest []) := by
  induction n with
  | zero =>
    show splitNlAux ('b' :: ';' :: '\n' :: rest) [] = _
    simp [splitNlAux]
  | succ n ih =>
    rw [blockOf_data]
    show splitNlAux ('b' :: '\n' :: ((blockOf n).data ++ rest)) [] = _
    rw [List.replicate_succ]
    have hb : String.mk ['b'] = "b" := rfl
    simp [splitNlAux, ih, hb]

theorem splitLines_bigScript : splitLinesPy bigSqlScript = bigLines := by
  simp only [splitLinesPy]
  have hdata : bigSqlScript.data =
      (blockOf 4).data ++ ((blockOf 1199).data ++ ((blockOf 4).data ++ [])) := by
    show ((blockOf 4 ++ (blockOf 1199 ++ blockOf 4))).data = _
    rw [String.data_append, String.data_append]
    simp
  rw [hdata, splitNlAux_block, splitNlAux_block, splitNlAux_block]
  have hsplit : splitNlAux [] [] = [""] := rfl
  rw [hsplit]
  have hparts : List.replicate 4 "b" ++ ("b;" ::
      (List.replicate 1199 "b" ++ ("b;" :: (List.replicate 4 "b" ++ ("b;" :: [""]))))) =
      bigLines ++ [""] := by
    simp only [bigLines, List.append_assoc, List.cons_append, List.nil_append]
  rw [hparts, List.getLast?_concat]
  rw [if_pos rfl, List.dropLast_concat]

theorem gatherStmts_block (n : Nat) (rest : List String) :
    ∀ cur : String, gatherStmts (List.replicate n "b" ++ ("b;" :: rest)) cur =
      pyStrip (cur ++ blockOf n) :: gatherStmts rest "" := by
  induction n with
  | zero =>
    intro cur
    show gatherStmts ("b;" :: rest) cur = _
    simp only [gatherStmts]
    rw [if_pos (by decide)]
    have : cur ++ "b;" ++ "\n" = cur ++ blockOf 0 := by
      rw [String.append_assoc]
      rfl
    rw [this]
  | succ n ih =>
    intro cur
    rw [List.replicate_succ]
    show gatherStmts ("b" :: (List.replicate n "b" ++ ("b;" :: rest))) cur = _
    simp only [gatherStmts]
    rw [if_neg (by decide), ih]
    have : cur ++ "b" ++ "\n" ++ blockOf n = cur ++ blockOf (n+1) := by
      show _ = cur ++ (("b\n" ++ bRep n) ++ "b;\n")
      rw [String.append_assoc, String.append_assoc, String.append_assoc]
      rfl
    rw [this]

theorem string_mk_data (s : String) : String.mk s.data = s := by
  cases s
  rfl

theorem pyStrip_sandwich (a z : Char) (mid : List Char)
    (ha : isWsChar a = false) (hz : isWsChar z = false) :
    ((((a :: (mid ++ [z])) ++ ['\n']).dropWhile isWsChar).reverse.dropWhile
        isWsChar).reverse = a :: (mid ++ [z]) := by
  have h1 : ((a :: (mid ++ [z])) ++ ['\n']).dropWhile isWsChar =
      a :: ((mid ++ [z]) ++ ['\n']) := by
    rw [List.cons_append, List.dropWhile_cons, ha]
    simp
  rw [h1]
  have h2 : (a :: ((mid ++ [z]) ++ ['\n'])).reverse =
      '\n' :: (z :: (mid.reverse ++ [a])) := by
    simp
  rw [h2, List.dropWhile_cons]
  rw [if_pos (by decide)]
  rw [List.dropWhile_cons, hz]
  simp

theorem stmtOf_data_shape (n : Nat) : ∃ mid, (stmtOf n).data = 'b' :: (mid ++ [';']) := by
  cases n with
  | zero => exact ⟨[], rfl⟩
  | succ k =>
    refine ⟨'\n' :: ((bRep k).data ++ ['b']), ?_⟩
    show ((("b\n" ++ bRep k) ++ "b;")).data = _
    rw [String.data_append, String.data_append]
    simp

theorem blockOf_data_eq (n : Nat) : (blockOf n).data = (stmtOf n).data ++ ['\n'] := by
  show ((bRep n ++ "b;\n")).data = ((bRep n ++ "b;")).data ++ ['\n']
  rw [String.data_append, String.data_append]
  simp

theorem pyStrip_blockOf (n : Nat) : pyStrip (blockOf n) = stmtOf n := by
  obtain ⟨mid, hmid⟩ := stmtOf_data_shape n
  unfold pyStrip
  rw [blockOf_data_eq, hmid]
  rw [pyStrip_sandwich 'b' ';' mid (by decide) (by decide)]
  rw [← hmid]

theorem bRep_data (n : Nat) : (bRep (n+1)).data = 'b' :: '\n' :: (bRep n).data := by
  show (("b\n" ++ bRep n)).data = _
  rw [String.data_append]
  simp

theorem splitNlAux_bRep (n : Nat) (rest : List Char) :
    splitNlAux ((bRep n).data ++ rest) [] = List.replicate n "b" ++ splitNlAux rest [] := by
  induction n with
  | zero => simp [bRep]
  | succ n ih =>
    rw [bRep_data]
    show splitNlAux ('b' :: '\n' :: ((bRep n).data ++ rest)) [] = _
    rw [List.replicate_succ]
    have hb : String.mk ['b'] = "b" := rfl
    simp [splitNlAux, ih, hb]

theorem numLines_stmtOf (n : Nat) : numLines (stmtOf n) = n + 1 := by
  unfold numLines
  simp only [splitLinesPy]
  have hdata : (stmtOf n).data = (bRep n).data ++ ['b', ';'] := by
    show ((bRep n ++ "b;")).data = _
    rw [String.data_append]
  rw [hdata, splitNlAux_bRep]
  have h2 : splitNlAux ['b', ';'] [] = ["b;"] := by decide
  rw [h2, List.getLast?_concat]
  rw [if_neg (by decide)]
  simp

theorem extract_bigScript :
    extractStatements bigSqlScript = [stmtOf 4, stmtOf 1199, stmtOf 4] := by
  unfold extractStatements
  rw [splitLines_bigScript]
  simp only [bigLines]
  rw [gatherStmts_block, gatherStmts_block, gatherStmts_block]
  have hnil : gatherStmts [] "" = [] := by decide
  rw [hnil]
  simp [string_nil_append, pyStrip_blockOf]

theorem chunkGo_big {s1 s2 s3 : String} (h1 : numLines s1 = 5) (h2 : numLines s2 = 1200)
    (h3 : numLines s3 = 5) :
    chunkGo 1000 [s1, s2, s3] [] 0 = [[s1], [s2], [s3]] := by
  simp [chunkGo, h1, h2, h3]

theorem bigScript_chunks :
    sqlSplitterGroups bigSqlScript 1000 = [[stmtOf 4], [stmtOf 1199], [stmtOf 4]] := by
  unfold sqlSplitterGroups
  rw [extract_bigScript]
  exact chunkGo_big (numLines_stmtOf 4) (numLines_stmtOf 1199) (numLines_stmtOf 4)

/-! ### Lemmas about the null handler -/

/-- Row filter corresponding to dropping nulls over a list of selected
columns: keep a row iff no selected column that exists in the table holds a
null in it. -/
def dropKeep (tcols : List String) (selected : List String) (r : List Cell) : Bool :=
  selected.all (fun c => !(tcols.contains c && isNullCell (cellAt r (List.indexOf c tcols))))

theorem applyNullStrategy_drop (fv : Cell) (t : Table) (c : String) :
    applyNullStrategy "drop" fv t c =
      ⟨t.cols, t.rows.filter
        (fun r => !(t.cols.contains c && isNullCell (cellAt r (List.indexOf c t.cols))))⟩ := by
  unfold applyNullStrategy
  by_cases h : c ∈ t.cols
  · rw [if_pos h, if_pos rfl]
    have hc : t.cols.contains c = true := List.elem_eq_true_of_mem h
    rw [hc]
    simp
  · rw [if_neg h]
    have hc : t.cols.contains c = false := by
      rw [Bool.eq_false_iff]
      intro hcon
      exact h (List.mem_of_elem_eq_true hcon)
    rw [hc]
    simp

theorem foldl_drop (fv : Cell) (selected : List String) :
    ∀ (tcols : List String) (rows : List (List Cell)),
      selected.foldl (applyNullStrategy "drop" fv) ⟨tcols, rows⟩ =
        ⟨tcols, rows.filter (dropKeep tcols selected)⟩ := by
  induction selected with
  | nil =>
    intro tcols rows
    have hk : dropKeep tcols [] = fun _ => true := by
      funext r
      rfl
    rw [List.foldl_nil, hk, List.filter_true]
  | cons c cs ih =>
    intro tcols rows
    rw [List.foldl_cons, applyNullStrategy_drop]
    dsimp only
    rw [ih, List.filter_filter]
    congr 1
    apply List.filter_congr
    intro r _
    simp [dropKeep, List.all_cons, Bool.and_comm]

theorem applyNullStrategy_unknown (strategy : String) (fv : Cell) (t : Table) (c : String)
    (h : strategy ∉ (["drop", "mean", "median", "mode", "zero", "value"] : List String)) :
    applyNullStrategy strategy fv t c = t := by
  simp only [List.mem_cons, not_or] at h
  obtain ⟨h1, h2, h3, h4, h5, h6, -⟩ := h
  unfold applyNullStrategy
  by_cases hc : c ∈ t.cols
  · rw [if_pos hc, if_neg h1, if_neg h2, if_neg h3, if_neg h4, if_neg h5, if_neg h6]
  · rw [if_neg hc]

theorem foldl_unknown (strategy : String) (fv : Cell)
    (h : strategy ∉ (["drop", "mean", "median", "mode", "zero", "value"] : List String)) :
    ∀ (cs : List String) (t : Table), cs.foldl (applyNullStrategy strategy fv) t = t := by
  intro cs
  induction cs with
  | nil => intro t; rfl
  | cons c cs ih =>
    intro t
    rw [List.foldl_cons, applyNullStrategy_unknown strategy fv t c h, ih]

/-! ### Lemmas about value serialization -/

theorem unesc_cons_of_ne {c : Char} (hc : c ≠ quoteChar) (l : List Char) :
    unescListQ (c :: l) = c :: unescListQ l := by
  cases l with
  | nil => rfl
  | cons c2 t =>
    rw [show unescListQ (c :: c2 :: t) =
        if c = quoteChar ∧ c2 = quoteChar then quoteChar :: unescListQ t
        else c :: unescListQ (c2 :: t) from rfl]
    rw [if_neg (fun hand => hc hand.1)]

theorem unesc_escListQ (l : List Char) : unescListQ (escListQ l) = l := by
  induction l with
  | nil => rfl
  | cons c t ih =>
    unfold escListQ
    by_cases hc : c = quoteChar
    · rw [if_pos hc]
      rw [show unescListQ (quoteChar :: quoteChar :: escListQ t) =
          if quoteChar = quoteChar ∧ quoteChar = quoteChar then
            quoteChar :: unescListQ (escListQ t)
          else quoteChar :: unescListQ (quoteChar :: escListQ t) from rfl]
      rw [if_pos ⟨rfl, rfl⟩, ih, hc]
    · rw [if_neg hc, unesc_cons_of_ne hc, ih]

theorem unescape_escape (s : String) : unescapeQuotes (escapeQuotes s) = s := by
  unfold unescapeQuotes escapeQuotes
  rw [show (String.mk (escListQ s.data)).data = escListQ s.data from rfl, unesc_escListQ]

theorem char_ofNat_digit : ∀ r : Nat, r < 10 → (Char.ofNat (48 + r)).isDigit = true := by
  decide

theorem natDigitsAux_digits :
    ∀ (fuel n : Nat) (acc : List Char), (∀ c ∈ acc, c.isDigit = true) →
      ∀ c ∈ natDigitsAux fuel n acc, c.isDigit = true := by
  intro fuel
  induction fuel with
  | zero => intro n acc hacc c hc; exact hacc c hc
  | succ f ih =>
    intro n acc hacc c hc
    unfold natDigitsAux at hc
    have hd : (Char.ofNat (48 + n % 10)).isDigit = true :=
      char_ofNat_digit (n % 10) (Nat.mod_lt n (by omega))
    by_cases hn : n < 10
    · rw [if_pos hn] at hc
      rcases List.mem_cons.mp hc with h1 | h2
      · rw [h1]; exact hd
      · exact hacc c h2
    · rw [if_neg hn] at hc
      refine ih (n / 10) (Char.ofNat (48 + n % 10) :: acc) ?_ c hc
      intro c2 hc2
      rcases List.mem_cons.mp hc2 with h1 | h2
      · rw [h1]; exact hd
      · exact hacc c2 h2

theorem natRepr_digits (n : Nat) : ∀ c ∈ (natRepr n).data, c.isDigit = true := by
  intro c hc
  exact natDigitsAux_digits (n + 1) n [] (by simp) c hc

theorem quote_not_in_digits {l : List Char} (h : ∀ c ∈ l, c.isDigit = true) :
    quoteChar ∉ l := by
  intro hmem
  exact absurd (h quoteChar hmem) (by decide)

theorem quote_not_in_pyIntRepr (n : Int) : quoteChar ∉ (pyIntRepr n).data := by
  unfold pyIntRepr
  by_cases h : n < 0
  · rw [if_pos h, String.data_append]
    intro hmem
    rcases List.mem_append.mp hmem with h1 | h2
    · have hq : quoteChar = '-' := by simpa using h1
      exact absurd hq (by decide)
    · exact quote_not_in_digits (natRepr_digits _) h2
  · rw [if_neg h]
    exact quote_not_in_digits (natRepr_digits _)

theorem quote_not_in_pyFloatRepr (q : ℚ) : quoteChar ∉ (pyFloatRepr q).data := by
  simp only [pyFloatRepr, String.data_append]
  intro hmem
  rcases List.mem_append.mp hmem with h0 | h5
  rcases List.mem_append.mp h0 with h0 | h4
  rcases List.mem_append.mp h0 with h0 | h3
  rcases List.mem_append.mp h0 with h1 | h2
  · by_cases hneg : q.num < 0
    · rw [if_pos hneg] at h1
      have hq : quoteChar = '-' := by simpa using h1
      exact absurd hq (by decide)
    · rw [if_neg hneg] at h1
      simp at h1
  · exact quote_not_in_digits (natRepr_digits _) h2
  · have hq : quoteChar = '.' := by simpa using h3
    exact absurd hq (by decide)
  · have hq : quoteChar = '0' := by
      have := List.eq_of_mem_replicate (by simpa using h4)
      exact this
    exact absurd hq (by decide)
  · exact quote_not_in_digits (natRepr_digits _) h5

/-! ### Claim theorems -/

/-- Example column for the type inference claims: three clean integers. -/
def exCol1 : List (Option String) := [some "1", some "2", some "3"]

/-- Example column for the type inference claims: numbers and one bad value. -/
def exCol2 : List (Option String) := [some "1.5", some "2", some "x"]

/-- C1: type inference classifies a column as numeric exactly when the newly
introduced nulls (nulls after numeric coercion minus pre-existing nulls) are
below 10 percent of the row count; a numeric column is integer iff every
coerced value has zero fractional part, and the reported null count is the
null count after numeric coercion.  The column 1,2,3 is integer with null
count 0, and the column 1.5,2,x over 3 rows is string. -/
theorem claim_C1_type_inference (col : List (Option String)) :
    (((inferColumn col).detected = "integer" ∨ (inferColumn col).detected = "float") ↔
      10 * (nullsAfterNumeric col - nullsBefore col) < col.length)
    ∧ (((inferColumn col).detected = "integer" ∨ (inferColumn col).detected = "float") →
        ((inferColumn col).detected = "integer" ↔ allCoercedIntegral col = true))
    ∧ (((inferColumn col).detected = "integer" ∨ (inferColumn col).detected = "float") →
        (inferColumn col).nullCount = nullsAfterNumeric col)
    ∧ inferColumn exCol1 = ⟨"integer", 0⟩
    ∧ (inferColumn exCol2).detected = "string" := by
  cases hth : threshLt (nullsAfterNumeric col - nullsBefore col) col.length with
  | true =>
    have heq := inferColumn_if_numeric hth
    have hnum10 := (threshLt_iff _ _).mp hth
    by_cases hint : allCoercedIntegral col = true
    · rw [if_pos hint] at heq
      refine ⟨?_, ?_, ?_, by decide, by decide⟩
      · exact iff_of_true (Or.inl (by rw [heq])) hnum10
      · intro _
        exact iff_of_true (by rw [heq]) hint
      · intro _
        rw [heq]
    · rw [if_neg hint] at heq
      refine ⟨?_, ?_, ?_, by decide, by decide⟩
      · exact iff_of_true (Or.inr (by rw [heq])) hnum10
      · intro _
        refine iff_of_false ?_ hint
        rw [heq]
        simp
      · intro _
        rw [heq]
  | false =>
    have heq := inferColumn_if_not_numeric hth
    have hnot10 : ¬ 10 * (nullsAfterNumeric col - nullsBefore col) < col.length := by
      intro hcon
      have := (threshLt_iff _ _).mpr hcon
      rw [hth] at this
      cases this
    have hne : (inferColumn col).detected = "datetime" ∨
        (inferColumn col).detected = "string" := by
      rw [heq]
      by_cases h2 : threshLt (nullsAfterDatetime col - nullsBefore col) col.length = true
      · rw [if_pos h2]
        exact Or.inl rfl
      · rw [if_neg h2]
        exact Or.inr rfl
    have hnotif : ¬ ((inferColumn col).detected = "integer" ∨
        (inferColumn col).detected = "float") := by
      intro hcon
      rcases hne with h | h <;> rcases hcon with hc | hc <;> rw [h] at hc <;>
        exact absurd hc (by decide)
    refine ⟨iff_of_false hnotif hnot10, ?_, ?_, by decide, by decide⟩
    · intro hcon
      exact absurd hcon hnotif
    · intro hcon
      exact absurd hcon hnotif

/-- Witness for C1 at the concrete column 1,2,3. -/
theorem claim_C1_type_inference_witness :
    10 * (nullsAfterNumeric exCol1 - nullsBefore exCol1) < exCol1.length
    ∧ ((inferColumn exCol1).detected = "integer" ↔ allCoercedIntegral exCol1 = true)
    ∧ (inferColumn exCol1).nullCount = nullsAfterNumeric exCol1 := by
  have h := claim_C1_type_inference exCol1
  exact ⟨h.1.mp (Or.inl (by decide)), h.2.1 (Or.inl (by decide)),
    h.2.2.1 (Or.inl (by decide))⟩

/-- C2: min-max normalization sends every non-constant uniformly-numeric
column to minimum 0 and maximum 1, and leaves constant (or value-free)
numeric columns untouched, so no division by zero occurs. -/
theorem claim_C2_normalize_minmax (t : List (List Cell)) (c : List Cell) (hc : c ∈ t) :
    normalizeCol c ∈ normalizeTable t
    ∧ (∀ m M : ℚ, isNumericColumn c = true → colMin c = some m → colMax c = some M →
        m < M → colMin (normalizeCol c) = some 0 ∧ colMax (normalizeCol c) = some 1)
    ∧ (∀ m M : ℚ, colMin c = some m → colMax c = some M → ¬ m < M → normalizeCol c = c)
    ∧ (colMin c = none → normalizeCol c = c) := by
  refine ⟨?_, ?_, ?_, ?_⟩
  · exact List.mem_map_of_mem normalizeCol hc
  · intro m M hnum hm hM hlt
    exact normalizeCol_minmax hnum hm hM hlt
  · intro m M hm hM hlt
    exact normalizeCol_not_lt hm hM hlt
  · exact normalizeCol_none

/-- Witness for C2 on a two-column table with a spread column and a constant
column. -/
theorem claim_C2_normalize_minmax_witness :
    (colMin (normalizeCol [Cell.float 1, Cell.float 3]) = some 0
      ∧ colMax (normalizeCol [Cell.float 1, Cell.float 3]) = some 1)
    ∧ normalizeCol [Cell.float 2, Cell.float 2] = [Cell.float 2, Cell.float 2] := by
  have h1 := claim_C2_normalize_minmax
    [[Cell.float 1, Cell.float 3], [Cell.float 2, Cell.float 2]]
    [Cell.float 1, Cell.float 3] (by simp)
  have h2 := claim_C2_normalize_minmax
    [[Cell.float 1, Cell.float 3], [Cell.float 2, Cell.float 2]]
    [Cell.float 2, Cell.float 2] (by simp)
  exact ⟨h1.2.1 1 3 (by decide) (by decide) (by decide) (by decide),
    h2.2.2.1 2 2 (by decide) (by decide) (by decide)⟩

/-- C9: normalization is idempotent (normalizing twice equals normalizing
once), and on a numeric column already spanning exactly 0 to 1 the numeric
values are returned unchanged. -/
theorem claim_C9_normalize_idempotent :
    (∀ t : List (List Cell), normalizeTable (normalizeTable t) = normalizeTable t)
    ∧ (∀ c : List Cell, isNumericColumn c = true → colMin c = some 0 → colMax c = some 1 →
        (normalizeCol c).map cellVal = c.map cellVal) := by
  exact ⟨normalizeTable_idem_all, fun c h h0 h1 => normalizeCol_vals_id h h0 h1⟩

/-- Witness for C9 on a column already spanning 0 to 1. -/
theorem claim_C9_normalize_idempotent_witness :
    normalizeTable (normalizeTable [[Cell.float 0, Cell.float 1]]) =
      normalizeTable [[Cell.float 0, Cell.float 1]]
    ∧ (normalizeCol [Cell.float 0, Cell.float 1]).map cellVal =
        [Cell.float 0, Cell.float 1].map cellVal := by
  have h := claim_C9_normalize_idempotent
  exact ⟨h.1 _, h.2 [Cell.float 0, Cell.float 1] (by decide) (by decide) (by decide)⟩

/-- C3 counterexample: an unknown strategy does not fail; `handle_nulls`
answers success with the table unchanged, because no branch of the strategy
chain matches and the loop is a no-op. -/
theorem claim_C3_counterexample :
    handleNulls (some ⟨["a"], [[Cell.int 1], [Cell.null]]⟩) (some "bogus") none none =
      .ok (⟨["a"], [[Cell.int 1], [Cell.null]]⟩, 2) := by decide

/-- C3 (amended): for every strategy outside the six known ones,
`handle_nulls` silently ignores the strategy and returns a success result
with the table unchanged and its row count (no `InvalidInputError`). -/
theorem claim_C3_unknown_strategy (t : Table) (strategy : String)
    (columns : Option (List String)) (fillValue : Option Cell)
    (h : strategy ∉ (["drop", "mean", "median", "mode", "zero", "value"] : List String)) :
    handleNulls (some t) (some strategy) columns fillValue = .ok (t, t.rows.length) := by
  show Except.ok
      (List.foldl (applyNullStrategy strategy (fillValue.getD (Cell.str ""))) t
        (columns.getD t.cols),
      (List.foldl (applyNullStrategy strategy (fillValue.getD (Cell.str ""))) t
        (columns.getD t.cols)).rows.length) = Except.ok (t, t.rows.length)
  rw [foldl_unknown strategy (fillValue.getD (Cell.str "")) h (columns.getD t.cols) t]

/-- Witness for C3 at a concrete table and strategy. -/
theorem claim_C3_unknown_strategy_witness :
    handleNulls (some ⟨["a"], [[Cell.int 1]]⟩) (some "badstrategy") none none =
      .ok (⟨["a"], [[Cell.int 1]]⟩, 1) :=
  claim_C3_unknown_strategy ⟨["a"], [[Cell.int 1]]⟩ "badstrategy" none none (by decide)

/-- C7: the drop strategy applied per column over the shrinking table removes
exactly the rows null in at least one selected (existing) column; surviving
rows keep their original order (the result rows are a sublist of the input
rows). -/
theorem claim_C7_drop_union (t : Table) (selected : List String) :
    handleNulls (some t) (some "drop") (some selected) none =
      .ok (⟨t.cols, t.rows.filter (dropKeep t.cols selected)⟩,
        (t.rows.filter (dropKeep t.cols selected)).length)
    ∧ (t.rows.filter (dropKeep t.cols selected)).Sublist t.rows := by
  constructor
  · obtain ⟨tcols, trows⟩ := t
    show Except.ok
        (List.foldl (applyNullStrategy "drop" (Cell.str "")) ⟨tcols, trows⟩ selected,
        (List.foldl (applyNullStrategy "drop" (Cell.str "")) ⟨tcols, trows⟩
          selected).rows.length) = _
    rw [foldl_drop (Cell.str "") selected tcols trows]
  · exact List.filter_sublist t.rows

/-- C4: every chunk either fits the maximum line count or is a single
oversized statement; chunks are whole statements (their concatenation is the
statement list, so no statement is split); and the concrete 5/1200/5-line
script with maximum 1000 yields exactly three chunks, one per statement. -/
theorem claim_C4_chunk_size_bound (content : String) (maxSize : Nat) :
    (∀ g ∈ sqlSplitterGroups content maxSize,
        groupSize g ≤ maxSize ∨ ∃ s, g = [s] ∧ maxSize < numLines s)
    ∧ (sqlSplitterGroups content maxSize).flatten = extractStatements content
    ∧ sqlSplitterGroups bigSqlScript 1000 = [[stmtOf 4], [stmtOf 1199], [stmtOf 4]]
    ∧ (extractStatements bigSqlScript).map numLines = [5, 1200, 5] := by
  refine ⟨?_, ?_, bigScript_chunks, ?_⟩
  · intro g hg
    exact chunkGo_sizes maxSize (extractStatements content) [] 0 (by simp [groupSize])
      (Or.inl rfl) g hg
  · have h := chunkGo_flatten maxSize (extractStatements content) [] 0
    simpa using h
  · rw [extract_bigScript]
    simp [numLines_stmtOf]

/-- Witness for C4 on a small script whose first chunk holds two one-line
statements under a maximum of 2. -/
theorem claim_C4_chunk_size_bound_witness :
    groupSize ["a;", "b;"] ≤ 2 ∨ ∃ s, (["a;", "b;"] : List String) = [s] ∧ 2 < numLines s :=
  (claim_C4_chunk_size_bound "a;\nb;\nc;" 2).1 ["a;", "b;"] (by decide)

/-- C10: the chunk groups are an ordered partition of the extracted
statements (their concatenation, in order, is the statement list, trailing
unterminated statement included), and the reported chunk and statement counts
are the lengths of those lists. -/
theorem claim_C10_chunk_partition (content : String) (maxSize : Nat) :
    (sqlSplitterGroups content maxSize).flatten = extractStatements content
    ∧ (sqlSplitter content maxSize).chunks =
        (sqlSplitterGroups content maxSize).map (joinSep "\n")
    ∧ (sqlSplitter content maxSize).chunkCount = (sqlSplitterGroups content maxSize).length
    ∧ (sqlSplitter content maxSize).originalStatementCount =
        (extractStatements content).length
    ∧ extractStatements "a;\nb" = ["a;", "b"] := by
  refine ⟨?_, rfl, by simp [sqlSplitter], rfl, by decide⟩
  have h := chunkGo_flatten maxSize (extractStatements content) [] 0
  simpa using h

/-- Example rows for the SQL generation claims. -/
def exRows : List (List Cell) :=
  [[Cell.int 1, Cell.str "A"], [Cell.int 2, Cell.str "B"], [Cell.int 3, Cell.str "C"]]

/-- C5: with batch size at most 1 the generator emits one INSERT per row; with
batch size b of at least 2 it emits ceil(n/b) INSERTs over consecutive groups
of b rows in original order, the last group possibly smaller. -/
theorem claim_C5_insert_batching (name : String) (cols : List String)
    (rows : List (List Cell)) (b : Int) :
    (b ≤ 1 → csvToSqlInserts name cols rows b = rows.map (rowInsert name cols)
      ∧ (csvToSqlInserts name cols rows b).length = rows.length)
    ∧ (2 ≤ b →
        csvToSqlInserts name cols rows b = (batchRows b.toNat rows).map (multiInsert name cols)
        ∧ (batchRows b.toNat rows).flatten = rows
        ∧ (batchRows b.toNat rows).length = (rows.length + b.toNat - 1) / b.toNat
        ∧ (∀ g ∈ (batchRows b.toNat rows).dropLast, g.length = b.toNat)
        ∧ (∀ g ∈ batchRows b.toNat rows, g.length ≤ b.toNat ∧ g ≠ [])) := by
  constructor
  · intro hb
    unfold csvToSqlInserts
    rw [if_pos hb]
    exact ⟨rfl, by simp⟩
  · intro hb
    have hb1 : 1 ≤ b.toNat := by omega
    have hnot : ¬ b ≤ 1 := by omega
    refine ⟨?_, ?_, ?_, ?_, ?_⟩
    · unfold csvToSqlInserts
      rw [if_neg hnot]
    · exact chunksOfFuel_flatten b.toNat hb1 rows.length rows (le_refl _)
    · exact chunksOfFuel_length b.toNat hb1 rows.length rows (le_refl _)
    · exact chunksOfFuel_dropLast b.toNat hb1 rows.length rows (le_refl _)
    · exact chunksOfFuel_mem b.toNat hb1 rows.length rows (le_refl _)

/-- Witness for C5: 3 rows with batch size 2 give two INSERTs holding 2 and 1
value tuples; batch size 1 gives three INSERTs. -/
theorem claim_C5_insert_batching_witness :
    (csvToSqlInserts "users" ["id", "name"] exRows 2).length = 2
    ∧ (batchRows 2 exRows).map List.length = [2, 1]
    ∧ (csvToSqlInserts "users" ["id", "name"] exRows 1).length = 3 := by
  have h2 := (claim_C5_insert_batching "users" ["id", "name"] exRows 2).2 (by decide)
  have h1 := (claim_C5_insert_batching "users" ["id", "name"] exRows 1).1 (by decide)
  refine ⟨?_, by decide, ?_⟩
  · rw [h2.1, List.length_map, h2.2.2.1]
    decide
  · rw [h1.2]
    decide

/-- C6: serialization sends nulls to NULL, numbers to unquoted literals (no
quote character occurs in them), the empty (falsy) string to NULL rather than
a quoted empty literal, and every other string to a single-quoted literal
whose embedded quotes are doubled losslessly (unescaping recovers the
original string). -/
theorem claim_C6_value_serialization :
    serializeVal Cell.null = "NULL"
    ∧ (∀ n : Int, serializeVal (Cell.int n) = pyIntRepr n
        ∧ quoteChar ∉ (serializeVal (Cell.int n)).data)
    ∧ (∀ q : ℚ, serializeVal (Cell.float q) = pyFloatRepr q
        ∧ quoteChar ∉ (serializeVal (Cell.float q)).data)
    ∧ (∀ s : String, serializeVal (Cell.str s) =
        if s.isEmpty then "NULL" else quoteStr ++ escapeQuotes s ++ quoteStr)
    ∧ (∀ s : String, unescapeQuotes (escapeQuotes s) = s)
    ∧ serializeVal (Cell.str "") = "NULL" := by
  refine ⟨rfl, fun n => ⟨rfl, quote_not_in_pyIntRepr n⟩,
    fun q => ⟨rfl, quote_not_in_pyFloatRepr q⟩, fun s => rfl, unescape_escape, by decide⟩

/-- Table used by the C8 counterexample. -/
def ceTable : Table := ⟨["a"], [[Cell.int 1]]⟩

/-- Upload whose strict read fails with a non-parser error and whose
permissive read succeeds. -/
def ceUpload : UploadedFile :=
  ⟨"data.csv", ⟨.error (.otherError "boom"), .error (.otherError "unused"),
    .error (.otherError "unused"), .ok ceTable⟩⟩

/-- C8 counterexample: the strict read fails (so a fallback is used) and the
permissive read succeeds, yet the result carries no warning flag, refuting
"a warning flag is surfaced whenever any fallback was used". -/
theorem claim_C8_counterexample :
    ceUpload.attempts.strict = .error (.otherError "boom")
    ∧ determineIngest (some ceUpload) = .parsed ceTable false := by
  exact ⟨rfl, rfl⟩

/-- C8 (amended): a missing upload or empty filename is a client error; a
strict-parse parser error triggers the skip-bad-lines fallback whose success
carries a warning; any other strict-parse failure triggers the permissive
fallback whose success carries no warning; and a failed permissive fallback
is a server error carrying the underlying message. -/
theorem claim_C8_ingest_fallback (f : UploadedFile) (df : Table) (msg : String) :
    determineIngest none = .clientError "No file part"
    ∧ (f.filename = "" → determineIngest (some f) = .clientError "No selected file")
    ∧ (f.filename ≠ "" → f.attempts.strict = .ok df →
        determineIngest (some f) = .parsed df false)
    ∧ (f.filename ≠ "" → f.attempts.strict = .error (.parserError msg) →
        f.attempts.skipBadLines = .ok df → determineIngest (some f) = .parsed df true)
    ∧ (f.filename ≠ "" → f.attempts.strict = .error (.otherError msg) →
        f.attempts.permissive = .ok df → determineIngest (some f) = .parsed df false)
    ∧ (∀ e2, f.filename ≠ "" → f.attempts.strict = .error (.otherError msg) →
        f.attempts.permissive = .error e2 →
        determineIngest (some f) = .serverError
          ("Failed to analyze CSV: Could not parse CSV file: " ++ failureMsg e2 ++
            ". Try checking for invalid characters or inconsistent formatting.")) := by
  refine ⟨rfl, ?_, ?_, ?_, ?_, ?_⟩
  · intro h
    simp only [determineIngest]
    rw [if_pos h]
  · intro h hs
    simp only [determineIngest]
    rw [if_neg h, hs]
  · intro h hs hskip
    simp only [determineIngest]
    rw [if_neg h, hs, hskip]
  · intro h hs hperm
    simp only [determineIngest]
    rw [if_neg h, hs, hperm]
  · intro e2 h hs hperm
    simp only [determineIngest]
    rw [if_neg h, hs, hperm]

/-- Witness for C8 on the skip-bad-lines path with a concrete upload. -/
theorem claim_C8_ingest_fallback_witness :
    determineIngest (some ⟨"w.csv", ⟨.error (.parserError "ragged"), .ok ceTable,
        .error (.otherError "unused"), .error (.otherError "unused")⟩⟩) =
      .parsed ceTable true := by
  exact (claim_C8_ingest_fallback ⟨"w.csv", ⟨.error (.parserError "ragged"), .ok ceTable,
      .error (.otherError "unused"), .error (.otherError "unused")⟩⟩ ceTable "ragged").2.2.2.1
    (by decide) rfl rfl
